import Mathlib

/-!
Shallow embedding of the snapstore layer of etcd-backup-restore:
the dual-endpoint failover store (`DualSnapStore`), its transient-error
classifier and circuit breaker, the merge/deduplication of snapshot lists,
the resilient S3 wrapper, the store-resolver configuration handling, and
the chunk-upload retry coordinator.

Go errors are modelled as values carrying their message text together with
the `net.Error` capability bits the classifier inspects.  Fallible calls to
the underlying primary/secondary backends are modelled as explicit outcome
parameters (`Option GoError` for operations returning only an error,
`Except GoError β` for operations returning a value), so each store method
becomes a pure function of the circuit-breaker state and the two backends'
outcomes, returning the overall result, the new breaker state, and flags
recording which backends were actually invoked.
-/

namespace Snapstore

/-- Checks that the second character list is an initial segment of the first;
used to model Go substring search. -/
def charsStartWith : List Char → List Char → Bool
  | _, [] => true
  | [], _ :: _ => false
  | a :: as, b :: bs => a == b && charsStartWith as bs

/-- Checks that the second character list occurs contiguously inside the
first; model of Go strings.Contains on the underlying characters. -/
def charsContain : List Char → List Char → Bool
  | s, sub =>
    if charsStartWith s sub then true
    else
      match s with
      | [] => false
      | _ :: as => charsContain as sub

/-- Model of Go strings.Contains s sub. -/
def strContains (s sub : String) : Bool :=
  charsContain s.toList sub.toList

/-- Model of a non-nil Go error: its message (what err.Error() returns) plus
the net.Error capability used by the classifier type assertion: whether the
error implements net.Error, and its Timeout() and Temporary() reports. -/
structure GoError where
  msg : String
  isNetError : Bool := false
  netTimeout : Bool := false
  netTemporary : Bool := false
deriving DecidableEq, Repr

/-- Embeds DualSnapStore.isTransientError (and the textually identical
ResilientS3SnapStore.IsTransientError): true iff the error text matches one
of the DNS/connectivity signatures, or the error is a net.Error whose
Timeout or Temporary indicator is set.  The err == nil case of the Go code
is handled by the embedding: errors are only ever passed where Go had a
non-nil error. -/
def isTransientError (e : GoError) : Bool :=
  strContains e.msg "no such host" ||
  strContains e.msg "dial tcp: lookup" ||
  strContains e.msg "request send failed" ||
  strContains e.msg "connection refused" ||
  strContains e.msg "connection timeout" ||
  strContains e.msg "i/o timeout" ||
  (e.isNetError && (e.netTimeout || e.netTemporary))

/-- The mutable circuit-breaker fields of DualSnapStore: primaryFailed and
primaryFailCount (the sync.RWMutex only serialises access and has no
sequential meaning). -/
structure BreakerState where
  primaryFailed : Bool
  primaryFailCount : Nat
deriving DecidableEq, Repr

/-- The zero value the breaker fields get in NewDualSnapStore. -/
def BreakerState.initial : BreakerState := ⟨false, 0⟩

/-- Embeds DualSnapStore.isPrimaryDisabled. -/
def isPrimaryDisabled (s : BreakerState) : Bool :=
  s.primaryFailed && decide (s.primaryFailCount ≥ 3)

/-- Embeds DualSnapStore.resetPrimaryFailureState. -/
def resetPrimaryFailureState (_ : BreakerState) : BreakerState :=
  ⟨false, 0⟩

/-- Embeds DualSnapStore.recordPrimaryFailure: a transient error marks the
primary failed and increments the consecutive-failure count; a non-transient
error resets the count to zero (and leaves primaryFailed as it was). -/
def recordPrimaryFailure (s : BreakerState) (e : GoError) : BreakerState :=
  if isTransientError e then
    ⟨true, s.primaryFailCount + 1⟩
  else
    ⟨s.primaryFailed, 0⟩

/-- Result of one DualSnapStore.Save call: the returned error (none =
success), the breaker state after the call, and whether each backend's Save
was invoked. -/
structure SaveOut where
  result : Option GoError
  state : BreakerState
  primaryCalled : Bool
  secondaryCalled : Bool
deriving DecidableEq, Repr

/-- Embeds DualSnapStore.Save.  `readOut` is the outcome of io.ReadAll on
the content stream; `pOut` and `sOut` are the outcomes the primary and
secondary backends' Save would produce if invoked (none = success). -/
def DualSnapStore.save (st : BreakerState) (snapName : String)
    (readOut : Option GoError) (pOut sOut : Option GoError) : SaveOut :=
  match readOut with
  | some e =>
    ⟨some ⟨"failed to read snapshot data: " ++ e.msg, false, false, false⟩,
      st, false, false⟩
  | none =>
    if !(isPrimaryDisabled st) then
      match pOut with
      | none =>
        ⟨none, resetPrimaryFailureState st, true, false⟩
      | some e =>
        let st1 := recordPrimaryFailure st e
        match sOut with
        | none => ⟨none, st1, true, true⟩
        | some e2 =>
          ⟨some ⟨"failed to save snapshot " ++ snapName ++
              " to both endpoints - Primary: " ++ e.msg ++
              ", Secondary: " ++ e2.msg, false, false, false⟩,
            st1, true, true⟩
    else
      match sOut with
      | none => ⟨none, st, false, true⟩
      | some e2 =>
        ⟨some ⟨"failed to save snapshot " ++ snapName ++
            " to both endpoints - Primary: primary endpoint disabled due to repeated failures" ++
            ", Secondary: " ++ e2.msg, false, false, false⟩,
          st, false, true⟩

/-- The fields of brtypes.Snapshot the snapstore layer manipulates: logical
directory, name, revision markers, creation time (seconds), and kind. -/
structure Snapshot where
  kind : String
  startRevision : Int
  lastRevision : Int
  createdOn : Nat
  snapDir : String
  snapName : String
deriving DecidableEq, Repr

/-- brtypes.SnapList, an ordered sequence of snapshots. -/
def SnapList := List Snapshot
deriving DecidableEq

/-- The deduplication key mergeSnapshots computes:
fmt.Sprintf with format string percent-s dash percent-s applied to
SnapDir and SnapName. -/
def mergeKey (s : Snapshot) : String :=
  s.snapDir ++ "-" ++ s.snapName

/-- Modelled from the spec: the domain total order on snapshots used by
sort.Sort on a SnapList (its Less method lives in pkg/types, outside the
provided sources): chronological order by creation time, ties broken by
start revision. -/
def snapLess (a b : Snapshot) : Bool :=
  decide (a.createdOn < b.createdOn) ||
  (a.createdOn == b.createdOn && decide (a.startRevision < b.startRevision))

/-- The non-strict ordering sort.Sort establishes from Less: a precedes b
when b is not strictly less than a. -/
def snapOrdered (a b : Snapshot) : Prop :=
  snapLess b a = false

instance : DecidableRel snapOrdered := fun a b =>
  inferInstanceAs (Decidable (snapLess b a = false))

/-- The Go map of mergeSnapshots, as an association list in insertion
order: assignment to an existing key replaces the value in place, a new key
is appended. -/
def mapAssign : List (String × Snapshot) → String → Snapshot →
    List (String × Snapshot)
  | [], k, v => [(k, v)]
  | (k0, v0) :: rest, k, v =>
    if k0 == k then (k0, v) :: rest
    else (k0, v0) :: mapAssign rest k v

/-- Key-membership test on the association-list model of the Go map. -/
def mapHasKey (m : List (String × Snapshot)) (k : String) : Bool :=
  m.any (fun kv => kv.fst == k)

/-- The body of the primary loop of mergeSnapshots: snapMap at key
becomes snap. -/
def assignStep (m : List (String × Snapshot)) (snap : Snapshot) :
    List (String × Snapshot) :=
  mapAssign m (mergeKey snap) snap

/-- The body of the secondary loop of mergeSnapshots: snap is stored only
when its key is not already present. -/
def insertStep (m : List (String × Snapshot)) (snap : Snapshot) :
    List (String × Snapshot) :=
  if mapHasKey m (mergeKey snap) then m
  else m ++ [(mergeKey snap, snap)]

/-- Embeds DualSnapStore.mergeSnapshots: every primary snapshot is assigned
into the map keyed by mergeKey (a later primary entry overwrites an earlier
one with the same key), each secondary snapshot is inserted only if its key
is absent, and the map values are sorted with the domain order.  Go
iterates the map in unspecified order before sorting; the model keeps
insertion order, which the final sort makes immaterial except among
entries tied in the order. -/
def mergeSnapshots (primarySnaps secondarySnaps : List Snapshot) :
    List Snapshot :=
  let m1 := primarySnaps.foldl assignStep []
  let m2 := secondarySnaps.foldl insertStep m1
  (m2.map Prod.snd).insertionSort snapOrdered

/-- Result of one DualSnapStore.Fetch call over stream type α. -/
structure FetchOut (α : Type) where
  result : Except GoError α
  state : BreakerState
  primaryCalled : Bool
  secondaryCalled : Bool

/-- Embeds DualSnapStore.Fetch: primary is attempted only while not
disabled; a primary success resets the breaker; a primary failure is
recorded and the secondary is attempted; when the secondary also fails, the
returned error interpolates the fixed error value built by fmt.Errorf with
text disabled due to failures for the primary slot and the secondary error
for the secondary slot. -/
def DualSnapStore.fetch {α : Type} (st : BreakerState) (snapName : String)
    (pOut sOut : Except GoError α) : FetchOut α :=
  if !(isPrimaryDisabled st) then
    match pOut with
    | .ok rc => ⟨.ok rc, resetPrimaryFailureState st, true, false⟩
    | .error e =>
      let st1 := recordPrimaryFailure st e
      match sOut with
      | .ok rc => ⟨.ok rc, st1, true, true⟩
      | .error e2 =>
        ⟨.error ⟨"failed to fetch snapshot " ++ snapName ++
            " from both endpoints - Primary: disabled due to failures, Secondary: " ++
            e2.msg, false, false, false⟩,
          st1, true, true⟩
  else
    match sOut with
    | .ok rc => ⟨.ok rc, st, false, true⟩
    | .error e2 =>
      ⟨.error ⟨"failed to fetch snapshot " ++ snapName ++
          " from both endpoints - Primary: disabled due to failures, Secondary: " ++
          e2.msg, false, false, false⟩,
        st, false, true⟩

/-- The per-side result collection of DualSnapStore.List after the join:
the goroutine put the side's outcome into its snaps channel (on success) or
its err channel (on failure), and both buffered channels were then closed,
so in the select both receive cases are always ready (a closed empty
channel yields the zero value) and the runtime chooses between them
pseudo-randomly.  `pickSnapsCase` says which case the scheduler chose: a
wrong pick reads the zero value from the closed empty channel and leaves
the real outcome undelivered, so that side appears as a nil listing with a
nil error. -/
def collectSide (out : Except GoError (List Snapshot))
    (pickSnapsCase : Bool) : List Snapshot × Option GoError :=
  match out, pickSnapsCase with
  | .ok l, true => (l, none)
  | .ok _, false => ([], none)
  | .error _, true => ([], none)
  | .error e, false => ([], some e)

/-- Embeds DualSnapStore.List joined on both goroutines: each side yields
either a listing or an error, collected through the raced select modelled
by collectSide (`pPick`/`sPick` are the scheduler's choices); when both
collected errors are non-nil and both classify transient the distinguished
temporarily-unavailable error is returned; when both are non-nil otherwise
the aggregate error is returned; otherwise the two collected listings (a
nil listing for a failed or mis-collected side) are merged.  List never
touches the circuit-breaker state. -/
def DualSnapStore.list (pOut sOut : Except GoError (List Snapshot))
    (pPick sPick : Bool) : Except GoError (List Snapshot) :=
  let pc := collectSide pOut pPick
  let sc := collectSide sOut sPick
  match pc.2, sc.2 with
  | some e1, some e2 =>
    if isTransientError e1 && isTransientError e2 then
      .error ⟨"both endpoints temporarily unavailable - Primary: " ++
        e1.msg ++ ", Secondary: " ++ e2.msg, false, false, false⟩
    else
      .error ⟨"failed to list snapshots from both endpoints - Primary: " ++
        e1.msg ++ ", Secondary: " ++ e2.msg, false, false, false⟩
  | _, _ => .ok (mergeSnapshots pc.1 sc.1)

/-- Embeds DualSnapStore.Delete: both endpoints are always attempted; only
simultaneous failure returns an error; the breaker is not consulted or
modified. -/
def DualSnapStore.delete (snapName : String) (pOut sOut : Option GoError) :
    Option GoError :=
  match pOut, sOut with
  | some e1, some e2 =>
    some ⟨"failed to delete snapshot " ++ snapName ++
      " from both endpoints - Primary: " ++ e1.msg ++
      ", Secondary: " ++ e2.msg, false, false, false⟩
  | _, _ => none

/-- One DualSnapStore operation together with the backend outcomes it would
observe, for reasoning about call sequences. -/
inductive DualOp where
  | saveOp (snapName : String) (readOut pOut sOut : Option GoError)
  | fetchOp (snapName : String) (pOut sOut : Except GoError Unit)
  | listOp (pOut sOut : Except GoError (List Snapshot))
  | deleteOp (snapName : String) (pOut sOut : Option GoError)

/-- The circuit-breaker state after one operation: Save and Fetch are the
only operations that read or write it. -/
def stepBreaker (st : BreakerState) : DualOp → BreakerState
  | .saveOp n r p s => (DualSnapStore.save st n r p s).state
  | .fetchOp n p s => (DualSnapStore.fetch st n p s).state
  | .listOp _ _ => st
  | .deleteOp _ _ _ => st

/-- The circuit-breaker state after a sequence of operations. -/
def runOps (st : BreakerState) (ops : List DualOp) : BreakerState :=
  ops.foldl stepBreaker st

/-- Embeds ResilientS3SnapStore.List over the underlying store's outcome:
a transient error becomes an empty list with no error; anything else is
passed through. -/
def ResilientS3SnapStore.list (out : Except GoError (List Snapshot)) :
    Except GoError (List Snapshot) :=
  match out with
  | .error e => if isTransientError e then .ok [] else .error e
  | .ok l => .ok l

/-- Embeds ResilientS3SnapStore.Fetch over the underlying store's outcome:
both the transient branch (after its warning log) and the fall-through
return the error unchanged. -/
def ResilientS3SnapStore.fetch {α : Type} (out : Except GoError α) :
    Except GoError α :=
  match out with
  | .error e => if isTransientError e then .error e else .error e
  | .ok rc => .ok rc

/-- Embeds ResilientS3SnapStore.Save over the underlying store's outcome:
the error, transient or not, is returned unchanged. -/
def ResilientS3SnapStore.save (out : Option GoError) : Option GoError :=
  match out with
  | some e => if isTransientError e then some e else some e
  | none => none

/-- Embeds ResilientS3SnapStore.Delete over the underlying store's outcome:
the error, transient or not, is returned unchanged. -/
def ResilientS3SnapStore.delete (out : Option GoError) : Option GoError :=
  match out with
  | some e => if isTransientError e then some e else some e
  | none => none

/-- The fields of the chunk work item the coordinator reads: identifier,
byte offset, and retry-attempt counter. -/
structure Chunk where
  id : Nat
  offset : Nat
  attempt : Nat
deriving DecidableEq, Repr

/-- One result emitted by a chunk-upload worker. -/
structure ChunkUploadResult where
  chunk : Chunk
  err : Option GoError
deriving DecidableEq, Repr

/-- Modelled from the spec: maxRetryAttempts, the configured maximum
retry-attempt count per chunk (declared outside the provided sources). -/
def maxRetryAttempts : Nat := 5

/-- Externally visible actions of the coordinator loop: scheduling a
delayed re-submission of a chunk, and broadcasting the one-shot stop
signal (close of stopCh). -/
inductive CoordEvent where
  | resubmit (c : Chunk) (delaySeconds : Nat)
  | stopSignal
deriving DecidableEq, Repr

/-- Embeds collectChunkUploadError over the drained stream of worker
results (the successive receives on resCh) with the running
remaining-chunk counter (an int64, initially noOfChunks).  Returns the
pipeline outcome — the terminal failing result, or none — together with
the ordered coordinator events: a failing result at maxRetryAttempts
closes stopCh and is returned with nothing further drained; a failing
result below it schedules a re-submission at attempt+1 after a
2-to-the-attempt second delay; a success decrements the counter and, at
zero, closes stopCh and ends the loop with a nil outcome. -/
def collectChunkUploadError :
    List ChunkUploadResult → Int → Option ChunkUploadResult × List CoordEvent
  | [], _ => (none, [])
  | r :: rest, remainingChunks =>
    match r.err with
    | some _ =>
      if r.chunk.attempt == maxRetryAttempts then
        (some r, [.stopSignal])
      else
        let delayTime := 2 ^ r.chunk.attempt
        let c : Chunk := { r.chunk with attempt := r.chunk.attempt + 1 }
        let out := collectChunkUploadError rest remainingChunks
        (out.fst, .resubmit c delayTime :: out.snd)
    | none =>
      let remaining1 := remainingChunks - 1
      if remaining1 == 0 then (none, [.stopSignal])
      else collectChunkUploadError rest remaining1

/-- Embeds the body of the time.AfterFunc callback that performs a delayed
re-submission: the select drops the chunk when stopCh is already closed
and re-enqueues it onto chunkUploadCh otherwise. -/
def resubmitFire (stopClosed : Bool) (c : Chunk) : Option Chunk :=
  if stopClosed then none else some c

/-! Supporting lemmas about the snapshot order and the association-list
model of the merge map. -/

theorem snapLess_iff (a b : Snapshot) :
    snapLess a b = true ↔
      a.createdOn < b.createdOn ∨
        (a.createdOn = b.createdOn ∧ a.startRevision < b.startRevision) := by
  simp [snapLess, Bool.or_eq_true, Bool.and_eq_true, decide_eq_true_iff,
    beq_iff_eq]

theorem snapLess_false_iff (a b : Snapshot) :
    snapLess a b = false ↔
      ¬(a.createdOn < b.createdOn ∨
        (a.createdOn = b.createdOn ∧ a.startRevision < b.startRevision)) := by
  rw [← snapLess_iff]
  cases h : snapLess a b <;> simp

instance : IsTotal Snapshot snapOrdered :=
  ⟨fun a b => by
    unfold snapOrdered
    rw [snapLess_false_iff, snapLess_false_iff]
    omega⟩

instance : IsTrans Snapshot snapOrdered :=
  ⟨fun a b c hab hbc => by
    unfold snapOrdered at *
    rw [snapLess_false_iff] at *
    omega⟩

theorem mapHasKey_iff (m : List (String × Snapshot)) (k : String) :
    mapHasKey m k = true ↔ k ∈ m.map Prod.fst := by
  simp [mapHasKey, List.any_eq_true, List.mem_map, beq_iff_eq]

theorem mapAssign_self_mem (m : List (String × Snapshot)) (k : String)
    (v : Snapshot) : (k, v) ∈ mapAssign m k v := by
  induction m with
  | nil => simp [mapAssign]
  | cons kv rest ih =>
    obtain ⟨k0, v0⟩ := kv
    simp only [mapAssign]
    split
    · next h =>
      have hk : k0 = k := by simpa [beq_iff_eq] using h
      subst hk
      exact List.mem_cons_self _ _
    · exact List.mem_cons_of_mem _ ih

theorem mapAssign_mem_of_ne (m : List (String × Snapshot))
    (k k2 : String) (v x : Snapshot) (h : (k, x) ∈ m) (hne : k ≠ k2) :
    (k, x) ∈ mapAssign m k2 v := by
  induction m with
  | nil => cases h
  | cons kv rest ih =>
    obtain ⟨k0, v0⟩ := kv
    simp only [mapAssign]
    rcases List.mem_cons.mp h with h1 | h1
    · injection h1 with hk hv
      subst hk
      subst hv
      split
      · next heq =>
        exact absurd (by simpa [beq_iff_eq] using heq) hne
      · exact List.mem_cons_self _ _
    · split
      · exact List.mem_cons_of_mem _ h1
      · exact List.mem_cons_of_mem _ (ih h1)

theorem mem_snd_mapAssign (m : List (String × Snapshot)) (k : String)
    (v x : Snapshot) (h : x ∈ (mapAssign m k v).map Prod.snd) :
    x = v ∨ x ∈ m.map Prod.snd := by
  induction m with
  | nil =>
    simp [mapAssign] at h
    exact Or.inl h
  | cons kv rest ih =>
    obtain ⟨k0, v0⟩ := kv
    simp only [mapAssign] at h
    by_cases hb : (k0 == k) = true
    · rw [if_pos hb] at h
      simp only [List.map_cons, List.mem_cons] at h
      rcases h with h | h
      · exact Or.inl h
      · exact Or.inr (by simp [h])
    · rw [if_neg hb] at h
      simp only [List.map_cons, List.mem_cons] at h
      rcases h with h | h
      · exact Or.inr (by simp [h])
      · rcases ih h with h2 | h2
        · exact Or.inl h2
        · exact Or.inr (by simp [List.mem_cons]; exact Or.inr (by simpa using h2))

theorem keys_mapAssign (m : List (String × Snapshot)) (k2 : String)
    (v : Snapshot) (k : String) :
    k ∈ (mapAssign m k2 v).map Prod.fst ↔
      k ∈ m.map Prod.fst ∨ k = k2 := by
  induction m with
  | nil => simp [mapAssign, eq_comm]
  | cons kv rest ih =>
    obtain ⟨k0, v0⟩ := kv
    simp only [mapAssign]
    by_cases hb : (k0 == k2) = true
    · rw [if_pos hb]
      have hk : k0 = k2 := by simpa [beq_iff_eq] using hb
      subst hk
      simp only [List.map_cons, List.mem_cons]
      tauto
    · rw [if_neg hb]
      simp only [List.map_cons, List.mem_cons, ih]
      tauto

theorem mapAssign_absent (m : List (String × Snapshot)) (k : String)
    (v : Snapshot) (h : k ∉ m.map Prod.fst) :
    mapAssign m k v = m ++ [(k, v)] := by
  induction m with
  | nil => simp [mapAssign]
  | cons kv rest ih =>
    obtain ⟨k0, v0⟩ := kv
    simp only [List.map_cons, List.mem_cons] at h
    push_neg at h
    simp only [mapAssign]
    rw [if_neg (by simp [beq_iff_eq]; exact fun hx => h.1 hx.symm)]
    rw [ih h.2]
    simp

theorem foldAssign_mem_snd (p : List Snapshot) :
    ∀ m0 x, x ∈ ((p.foldl assignStep m0).map Prod.snd) →
      x ∈ m0.map Prod.snd ∨ x ∈ p := by
  induction p with
  | nil =>
    intro m0 x h
    exact Or.inl (by simpa using h)
  | cons a rest ih =>
    intro m0 x h
    rw [List.foldl_cons] at h
    rcases ih _ x h with h1 | h1
    · rcases mem_snd_mapAssign _ _ _ _ h1 with h2 | h2
      · exact Or.inr (h2 ▸ List.mem_cons_self _ _)
      · exact Or.inl h2
    · exact Or.inr (List.mem_cons_of_mem _ h1)

theorem foldAssign_keys (p : List Snapshot) :
    ∀ m0 k, k ∈ (p.foldl assignStep m0).map Prod.fst ↔
      k ∈ m0.map Prod.fst ∨ k ∈ p.map mergeKey := by
  induction p with
  | nil => intro m0 k; simp
  | cons a rest ih =>
    intro m0 k
    rw [List.foldl_cons]
    rw [ih]
    unfold assignStep
    rw [keys_mapAssign]
    simp only [List.map_cons, List.mem_cons]
    tauto

theorem foldAssign_pair_mem (p : List Snapshot) :
    ∀ m0 (k : String) (x : Snapshot), (k, x) ∈ m0 →
      k ∉ p.map mergeKey → (k, x) ∈ p.foldl assignStep m0 := by
  induction p with
  | nil => intro m0 k x h _; simpa using h
  | cons a rest ih =>
    intro m0 k x h hk
    simp only [List.map_cons, List.mem_cons] at hk
    push_neg at hk
    rw [List.foldl_cons]
    exact ih _ _ _ (mapAssign_mem_of_ne _ _ _ _ _ h hk.1) hk.2

theorem foldAssign_all_mem (p : List Snapshot) :
    ∀ m0 x, x ∈ p → (p.map mergeKey).Nodup →
      (mergeKey x, x) ∈ p.foldl assignStep m0 := by
  induction p with
  | nil => intro m0 x h _; cases h
  | cons a rest ih =>
    intro m0 x h hnd
    simp only [List.map_cons, List.nodup_cons] at hnd
    rw [List.foldl_cons]
    rcases List.mem_cons.mp h with h1 | h1
    · subst h1
      exact foldAssign_pair_mem rest _ _ _ (mapAssign_self_mem _ _ _) hnd.1
    · exact ih _ _ h1 hnd.2

theorem foldAssign_append_eq (p : List Snapshot) :
    ∀ m0, (p.map mergeKey).Nodup →
      (∀ x ∈ p, mergeKey x ∉ m0.map Prod.fst) →
      (p.foldl assignStep m0).map Prod.snd = m0.map Prod.snd ++ p := by
  induction p with
  | nil => intro m0 _ _; simp
  | cons a rest ih =>
    intro m0 hnd habs
    simp only [List.map_cons, List.nodup_cons] at hnd
    rw [List.foldl_cons]
    have ha : mergeKey a ∉ m0.map Prod.fst :=
      habs a (List.mem_cons_self _ _)
    rw [show assignStep m0 a = m0 ++ [(mergeKey a, a)] from
      mapAssign_absent _ _ _ ha]
    rw [ih _ hnd.2]
    · simp
    · intro x hx
      rw [List.map_append]
      simp only [List.mem_append, List.map_cons, List.map_nil,
        List.mem_singleton]
      push_neg
      refine ⟨habs x (List.mem_cons_of_mem _ hx), ?_⟩
      intro hcontra
      exact hnd.1 (hcontra ▸ List.mem_map_of_mem mergeKey hx)

theorem foldInsert_mem_snd_mono (s : List Snapshot) :
    ∀ m x, x ∈ m.map Prod.snd → x ∈ (s.foldl insertStep m).map Prod.snd := by
  induction s with
  | nil => intro m x h; simpa using h
  | cons a rest ih =>
    intro m x h
    rw [List.foldl_cons]
    apply ih
    unfold insertStep
    split
    · exact h
    · rw [List.map_append]
      exact List.mem_append_left _ h

theorem foldInsert_mem_snd_sub (s : List Snapshot) :
    ∀ m x, x ∈ (s.foldl insertStep m).map Prod.snd →
      x ∈ m.map Prod.snd ∨ x ∈ s := by
  induction s with
  | nil => intro m x h; exact Or.inl (by simpa using h)
  | cons a rest ih =>
    intro m x h
    rw [List.foldl_cons] at h
    rcases ih _ x h with h1 | h1
    · unfold insertStep at h1
      split at h1
      · exact Or.inl h1
      · rw [List.map_append] at h1
        rcases List.mem_append.mp h1 with h2 | h2
        · exact Or.inl h2
        · simp only [List.map_cons, List.map_nil, List.mem_singleton] at h2
          exact Or.inr (h2 ▸ List.mem_cons_self _ _)
    · exact Or.inr (List.mem_cons_of_mem _ h1)

theorem foldInsert_keys_mono (s : List Snapshot) :
    ∀ m k, k ∈ m.map Prod.fst → k ∈ (s.foldl insertStep m).map Prod.fst := by
  induction s with
  | nil => intro m k h; simpa using h
  | cons a rest ih =>
    intro m k h
    rw [List.foldl_cons]
    apply ih
    unfold insertStep
    split
    · exact h
    · rw [List.map_append]
      exact List.mem_append_left _ h

theorem foldInsert_inserts (s : List Snapshot) :
    ∀ m y, y ∈ s → (s.map mergeKey).Nodup →
      mergeKey y ∉ m.map Prod.fst →
      y ∈ (s.foldl insertStep m).map Prod.snd := by
  induction s with
  | nil => intro m y h _ _; cases h
  | cons a rest ih =>
    intro m y hy hnd habs
    simp only [List.map_cons, List.nodup_cons] at hnd
    rw [List.foldl_cons]
    rcases List.mem_cons.mp hy with h1 | h1
    · subst h1
      have hstep : insertStep m y = m ++ [(mergeKey y, y)] := by
        unfold insertStep
        rw [if_neg]
        intro hc
        exact habs ((mapHasKey_iff _ _).mp hc)
      rw [hstep]
      apply foldInsert_mem_snd_mono
      rw [List.map_append]
      apply List.mem_append_right
      simp
    · have hne : mergeKey a ≠ mergeKey y := by
        intro hc
        exact hnd.1 (hc ▸ List.mem_map_of_mem mergeKey h1)
      apply ih _ _ h1 hnd.2
      unfold insertStep
      split
      · exact habs
      · rw [List.map_append]
        simp only [List.mem_append, List.map_cons, List.map_nil,
          List.mem_singleton]
        push_neg
        exact ⟨habs, fun hc => hne hc.symm⟩

theorem foldInsert_skips (s : List Snapshot) :
    ∀ m y, mergeKey y ∈ m.map Prod.fst → y ∉ m.map Prod.snd →
      y ∉ (s.foldl insertStep m).map Prod.snd := by
  induction s with
  | nil => intro m y _ h hc; exact h (by simpa using hc)
  | cons a rest ih =>
    intro m y hkey hval
    rw [List.foldl_cons]
    apply ih
    · unfold insertStep
      split
      · exact hkey
      · rw [List.map_append]
        exact List.mem_append_left _ hkey
    · unfold insertStep
      split
      · exact hval
      · next hc =>
        rw [List.map_append]
        intro hmem
        rcases List.mem_append.mp hmem with h2 | h2
        · exact hval h2
        · simp only [List.map_cons, List.map_nil, List.mem_singleton] at h2
          subst h2
          exact hc ((mapHasKey_iff _ _).mpr hkey)

theorem foldInsert_append_eq (s : List Snapshot) :
    ∀ m, (s.map mergeKey).Nodup →
      (∀ y ∈ s, mergeKey y ∉ m.map Prod.fst) →
      (s.foldl insertStep m).map Prod.snd = m.map Prod.snd ++ s := by
  induction s with
  | nil => intro m _ _; simp
  | cons a rest ih =>
    intro m hnd habs
    simp only [List.map_cons, List.nodup_cons] at hnd
    rw [List.foldl_cons]
    have hstep : insertStep m a = m ++ [(mergeKey a, a)] := by
      unfold insertStep
      rw [if_neg]
      intro hc
      exact habs a (List.mem_cons_self _ _) ((mapHasKey_iff _ _).mp hc)
    rw [hstep]
    rw [ih _ hnd.2]
    · simp
    · intro y hy
      rw [List.map_append]
      simp only [List.mem_append, List.map_cons, List.map_nil,
        List.mem_singleton]
      push_neg
      refine ⟨habs y (List.mem_cons_of_mem _ hy), ?_⟩
      intro hcontra
      exact hnd.1 (hcontra ▸ List.mem_map_of_mem mergeKey hy)

theorem mergeSnapshots_nil_right (p : List Snapshot)
    (hnd : (p.map mergeKey).Nodup) (hs : p.Sorted snapOrdered) :
    mergeSnapshots p [] = p := by
  unfold mergeSnapshots
  simp only [List.foldl_nil]
  rw [foldAssign_append_eq p [] hnd (by simp)]
  simp only [List.map_nil, List.nil_append]
  exact hs.insertionSort_eq

theorem mergeSnapshots_nil_left (s : List Snapshot)
    (hnd : (s.map mergeKey).Nodup) (hs : s.Sorted snapOrdered) :
    mergeSnapshots [] s = s := by
  unfold mergeSnapshots
  simp only [List.foldl_nil]
  rw [foldInsert_append_eq s [] hnd (by simp)]
  simp only [List.map_nil, List.nil_append]
  exact hs.insertionSort_eq

theorem save_primaryCalled_of_disabled (st : BreakerState)
    (h : isPrimaryDisabled st = true) (n : String)
    (rOut pOut sOut : Option GoError) :
    (DualSnapStore.save st n rOut pOut sOut).primaryCalled = false := by
  unfold DualSnapStore.save
  cases rOut with
  | some e => rfl
  | none =>
    rw [h]
    cases sOut <;> rfl

theorem fetch_primaryCalled_of_disabled (st : BreakerState)
    (h : isPrimaryDisabled st = true) (n : String)
    (pOut sOut : Except GoError Unit) :
    (DualSnapStore.fetch st n pOut sOut).primaryCalled = false := by
  unfold DualSnapStore.fetch
  rw [h]
  cases sOut <;> rfl

theorem stepBreaker_of_disabled (st : BreakerState) (op : DualOp)
    (h : isPrimaryDisabled st = true) : stepBreaker st op = st := by
  cases op with
  | saveOp n r p s =>
    unfold stepBreaker DualSnapStore.save
    cases r with
    | some e => rfl
    | none =>
      rw [h]
      cases s <;> rfl
  | fetchOp n p s =>
    unfold stepBreaker DualSnapStore.fetch
    rw [h]
    cases s <;> rfl
  | listOp p s => rfl
  | deleteOp n p s => rfl

/-- C10: when reading the content stream fails, DualSnapStore.Save returns
the read error immediately, invokes neither the primary nor the secondary
backend, and leaves the circuit-breaker state unchanged. -/
theorem save_read_failure_spec (st : BreakerState) (n : String)
    (e : GoError) (pOut sOut : Option GoError) :
    DualSnapStore.save st n (some e) pOut sOut =
      ⟨some ⟨"failed to read snapshot data: " ++ e.msg, false, false, false⟩,
        st, false, false⟩ := rfl

/-- C6: when the primary is not disabled and the primary Save succeeds,
DualSnapStore.Save returns no error, never invokes the secondary, and
resets the circuit-breaker failure state. -/
theorem save_primary_success_spec (st : BreakerState) (n : String)
    (sOut : Option GoError) (h : isPrimaryDisabled st = false) :
    DualSnapStore.save st n none none sOut =
      ⟨none, ⟨false, 0⟩, true, false⟩ := by
  unfold DualSnapStore.save
  rw [h]
  rfl

theorem save_primary_success_spec_witness :
    isPrimaryDisabled BreakerState.initial = false ∧
    DualSnapStore.save BreakerState.initial "snap" none none
        (some ⟨"unused", false, false, false⟩) =
      ⟨none, ⟨false, 0⟩, true, false⟩ :=
  ⟨by decide,
    save_primary_success_spec BreakerState.initial "snap"
      (some ⟨"unused", false, false, false⟩) (by decide)⟩

/-- C3: once the primary endpoint is disabled, no sequence of
Save/Fetch/List/Delete operations ever re-enables it: the disabled flag is
preserved by every operation, whatever the backends do. -/
theorem primaryDisabled_permanent (st : BreakerState) (ops : List DualOp)
    (h : isPrimaryDisabled st = true) :
    isPrimaryDisabled (runOps st ops) = true := by
  have hrun : runOps st ops = st := by
    unfold runOps
    induction ops with
    | nil => rfl
    | cons op rest ih =>
      rw [List.foldl_cons, stepBreaker_of_disabled st op h]
      exact ih
  rw [hrun]
  exact h

theorem primaryDisabled_permanent_witness :
    isPrimaryDisabled ⟨true, 3⟩ = true ∧
    isPrimaryDisabled (runOps ⟨true, 3⟩
      [DualOp.fetchOp "s" (.ok ()) (.ok ()),
       DualOp.saveOp "s" none none none,
       DualOp.listOp (.ok []) (.ok []),
       DualOp.deleteOp "s" none none]) = true :=
  ⟨by decide, primaryDisabled_permanent ⟨true, 3⟩ _ (by decide)⟩

/-- C2: three consecutive transient-classified recorded primary failures
disable the primary, so the next Save or Fetch does not invoke the primary
backend; recording a non-transient failure resets the consecutive-failure
counter to zero and leaves the primary not disabled. -/
theorem circuitBreaker_threshold_spec (st : BreakerState)
    (e1 e2 e3 e : GoError)
    (h1 : isTransientError e1 = true) (h2 : isTransientError e2 = true)
    (h3 : isTransientError e3 = true) (hf : isTransientError e = false) :
    isPrimaryDisabled
        (recordPrimaryFailure
          (recordPrimaryFailure (recordPrimaryFailure st e1) e2) e3) =
      true ∧
    (∀ n rOut pOut sOut,
      (DualSnapStore.save
          (recordPrimaryFailure
            (recordPrimaryFailure (recordPrimaryFailure st e1) e2) e3)
          n rOut pOut sOut).primaryCalled = false) ∧
    (∀ n pOut sOut,
      (DualSnapStore.fetch (α := Unit)
          (recordPrimaryFailure
            (recordPrimaryFailure (recordPrimaryFailure st e1) e2) e3)
          n pOut sOut).primaryCalled = false) ∧
    (recordPrimaryFailure st e).primaryFailCount = 0 ∧
    isPrimaryDisabled (recordPrimaryFailure st e) = false := by
  have hd : isPrimaryDisabled
      (recordPrimaryFailure
        (recordPrimaryFailure (recordPrimaryFailure st e1) e2) e3) = true := by
    simp only [recordPrimaryFailure, h1, h2, h3, if_pos, isPrimaryDisabled]
    simp
  refine ⟨hd, ?_, ?_, ?_, ?_⟩
  · intro n rOut pOut sOut
    exact save_primaryCalled_of_disabled _ hd n rOut pOut sOut
  · intro n pOut sOut
    exact fetch_primaryCalled_of_disabled _ hd n pOut sOut
  · simp [recordPrimaryFailure, hf]
  · simp [recordPrimaryFailure, hf, isPrimaryDisabled]

theorem circuitBreaker_threshold_spec_witness :
    isTransientError ⟨"no such host", false, false, false⟩ = true ∧
    isTransientError ⟨"access denied", false, false, false⟩ = false ∧
    isPrimaryDisabled
        (recordPrimaryFailure
          (recordPrimaryFailure
            (recordPrimaryFailure BreakerState.initial
              ⟨"no such host", false, false, false⟩)
            ⟨"no such host", false, false, false⟩)
          ⟨"no such host", false, false, false⟩) = true :=
  ⟨by decide, by decide,
    (circuitBreaker_threshold_spec BreakerState.initial
      ⟨"no such host", false, false, false⟩
      ⟨"no such host", false, false, false⟩
      ⟨"no such host", false, false, false⟩
      ⟨"access denied", false, false, false⟩
      (by decide) (by decide) (by decide) (by decide)).1⟩

/-- C1: when the primary is attempted (not disabled) and fails, and the
secondary also fails, the error DualSnapStore.Fetch returns interpolates
the fixed text disabled due to failures in the primary slot instead of the
primary's actual cause: at a concrete pair of causes, the actual primary
cause does not occur in the returned message while the secondary cause
does, refuting the claim that both actual causes are embedded. -/
theorem fetch_bothFail_omits_primary_cause :
    isPrimaryDisabled BreakerState.initial = false ∧
    (DualSnapStore.fetch (α := Unit) BreakerState.initial "snap"
        (.error ⟨"primary exploded", false, false, false⟩)
        (.error ⟨"secondary exploded", false, false, false⟩)).result =
      .error ⟨"failed to fetch snapshot snap from both endpoints - Primary: disabled due to failures, Secondary: secondary exploded",
        false, false, false⟩ ∧
    strContains
      "failed to fetch snapshot snap from both endpoints - Primary: disabled due to failures, Secondary: secondary exploded"
      "primary exploded" = false ∧
    strContains
      "failed to fetch snapshot snap from both endpoints - Primary: disabled due to failures, Secondary: secondary exploded"
      "secondary exploded" = true := by
  refine ⟨by decide, rfl, by decide, by decide⟩

/-- C8: the resilient wrapper turns a transient List failure into an empty
listing with no error, passes a non-transient List failure through, and
passes any Fetch, Save, or Delete failure through unchanged. -/
theorem resilient_wrapper_spec (e : GoError) (l : List Snapshot) :
    (isTransientError e = true →
      ResilientS3SnapStore.list (.error e) = .ok []) ∧
    (isTransientError e = false →
      ResilientS3SnapStore.list (.error e) = .error e) ∧
    ResilientS3SnapStore.list (.ok l) = .ok l ∧
    ResilientS3SnapStore.fetch (α := Unit) (.error e) = .error e ∧
    ResilientS3SnapStore.save (some e) = some e ∧
    ResilientS3SnapStore.delete (some e) = some e := by
  refine ⟨fun h => by simp [ResilientS3SnapStore.list, h],
    fun h => by simp [ResilientS3SnapStore.list, h], rfl, ?_, ?_, ?_⟩
  · cases h : isTransientError e <;>
      simp [ResilientS3SnapStore.fetch, h]
  · cases h : isTransientError e <;>
      simp [ResilientS3SnapStore.save, h]
  · cases h : isTransientError e <;>
      simp [ResilientS3SnapStore.delete, h]

theorem resilient_wrapper_spec_witness :
    isTransientError ⟨"connection timeout", false, false, false⟩ = true ∧
    ResilientS3SnapStore.list
        (.error ⟨"connection timeout", false, false, false⟩) = .ok [] :=
  ⟨by decide,
    (resilient_wrapper_spec ⟨"connection timeout", false, false, false⟩
      []).1 (by decide)⟩

/-- C4 counterexample: the dedup key is the string SnapDir-SnapName, so the
distinct (directory, name) pairs (a-b, c) and (a, b-c) collide; contrary to
the claim that a secondary entry appears iff no primary entry has the same
(directory, name) pair, here the pairs differ yet the merge has a single
entry and the secondary entry is absent. -/
theorem mergeSnapshots_key_collision_counterexample :
    (Snapshot.mk "Full" 1 1 100 "a-b" "c").snapDir ≠
      (Snapshot.mk "Full" 2 2 100 "a" "b-c").snapDir ∧
    (mergeSnapshots [⟨"Full", 1, 1, 100, "a-b", "c"⟩]
        [⟨"Full", 2, 2, 100, "a", "b-c"⟩]).length = 1 ∧
    (⟨"Full", 2, 2, 100, "a", "b-c"⟩ : Snapshot) ∉
      mergeSnapshots [⟨"Full", 1, 1, 100, "a-b", "c"⟩]
        [⟨"Full", 2, 2, 100, "a", "b-c"⟩] := by
  refine ⟨by decide, by decide, by decide⟩

/-- C4 (amended): mergeSnapshots deduplicates by the concatenated string
key SnapDir-SnapName (so distinct pairs with equal concatenations also
collide): every element of the merge comes from one of the inputs; when the
primary keys are pairwise distinct every primary entry appears; a secondary
entry whose key matches no primary key appears when the secondary keys are
pairwise distinct; a secondary entry (not itself a primary entry) whose key
matches a primary key is dropped; the result is sorted by the domain order;
and on the claim's concrete example the merge has exactly the primary
(A, X) entry with revision 1 and the (B, Y) entry. -/
theorem mergeSnapshots_spec (p s : List Snapshot) :
    (∀ x ∈ mergeSnapshots p s, x ∈ p ∨ x ∈ s) ∧
    ((p.map mergeKey).Nodup → ∀ x ∈ p, x ∈ mergeSnapshots p s) ∧
    ((s.map mergeKey).Nodup → ∀ y ∈ s,
      mergeKey y ∉ p.map mergeKey → y ∈ mergeSnapshots p s) ∧
    (∀ y ∈ s, y ∉ p → mergeKey y ∈ p.map mergeKey →
      y ∉ mergeSnapshots p s) ∧
    (mergeSnapshots p s).Sorted snapOrdered ∧
    mergeSnapshots [⟨"Full", 1, 1, 100, "A", "X"⟩]
        [⟨"Full", 2, 2, 100, "A", "X"⟩, ⟨"Full", 3, 3, 200, "B", "Y"⟩] =
      [⟨"Full", 1, 1, 100, "A", "X"⟩, ⟨"Full", 3, 3, 200, "B", "Y"⟩] := by
  refine ⟨?_, ?_, ?_, ?_, ?_, by decide⟩
  · intro x hx
    simp only [mergeSnapshots, List.mem_insertionSort] at hx
    rcases foldInsert_mem_snd_sub s _ x hx with h1 | h1
    · rcases foldAssign_mem_snd p [] x h1 with h2 | h2
      · simp at h2
      · exact Or.inl h2
    · exact Or.inr h1
  · intro hnd x hx
    simp only [mergeSnapshots, List.mem_insertionSort]
    apply foldInsert_mem_snd_mono
    exact List.mem_map_of_mem Prod.snd (foldAssign_all_mem p [] x hx hnd)
  · intro hnds y hy hk
    simp only [mergeSnapshots, List.mem_insertionSort]
    apply foldInsert_inserts s _ y hy hnds
    rw [foldAssign_keys]
    simp only [List.map_nil, List.not_mem_nil, false_or]
    exact hk
  · intro y hy hnp hk
    simp only [mergeSnapshots, List.mem_insertionSort]
    apply foldInsert_skips
    · rw [foldAssign_keys]
      exact Or.inr hk
    · intro hc
      rcases foldAssign_mem_snd p [] y hc with h2 | h2
      · simp at h2
      · exact hnp h2
  · simp only [mergeSnapshots]
    exact List.sorted_insertionSort snapOrdered _

theorem mergeSnapshots_spec_witness :
    (([⟨"Full", 3, 3, 200, "B", "Y"⟩] : List Snapshot).map mergeKey).Nodup ∧
    (⟨"Full", 3, 3, 200, "B", "Y"⟩ : Snapshot) ∈
      mergeSnapshots [⟨"Full", 1, 1, 100, "A", "X"⟩]
        [⟨"Full", 3, 3, 200, "B", "Y"⟩] :=
  ⟨by decide,
    (mergeSnapshots_spec [⟨"Full", 1, 1, 100, "A", "X"⟩]
        [⟨"Full", 3, 3, 200, "B", "Y"⟩]).2.2.1 (by decide)
      ⟨"Full", 3, 3, 200, "B", "Y"⟩ (by decide) (by decide)⟩

/-- C5: the post-join collection of List races: after the channel closes
both select cases are always ready, so a wrong pick reads the closed empty
channel's zero value and discards the side's real outcome.  At a concrete
input where both listings fail with a transient DNS error, the schedule
choosing both snaps cases makes List return an empty listing with no error,
while the schedule delivering both errors returns the distinguished
temporarily-unavailable error that the claim requires; so the program can
mask the double transient failure the claim says is always surfaced. -/
theorem list_race_masks_both_transient_failure :
    isTransientError ⟨"no such host", false, false, false⟩ = true ∧
    DualSnapStore.list
        (.error ⟨"no such host", false, false, false⟩)
        (.error ⟨"no such host", false, false, false⟩) true true =
      .ok [] ∧
    DualSnapStore.list
        (.error ⟨"no such host", false, false, false⟩)
        (.error ⟨"no such host", false, false, false⟩) false false =
      .error ⟨"both endpoints temporarily unavailable - Primary: no such host, Secondary: no such host",
        false, false, false⟩ :=
  ⟨by decide, rfl, rfl⟩

/-- C9: a failed chunk result already at maxRetryAttempts makes the
coordinator broadcast the stop signal and return that result, independent
of anything left in the stream; a failed result below the maximum schedules
a re-submission with the attempt counter incremented after a
2-to-the-attempt delay, and the delayed re-submission is dropped when the
stop signal is already set; a stream of exactly noOfChunks successful
results drives the remaining-chunk counter to zero, broadcasts the stop
signal, and returns nil. -/
theorem chunk_coordinator_spec :
    (∀ (r : ChunkUploadResult) (rest : List ChunkUploadResult) (rem : Int),
      r.err.isSome = true → r.chunk.attempt = maxRetryAttempts →
      collectChunkUploadError (r :: rest) rem =
        (some r, [CoordEvent.stopSignal])) ∧
    (∀ (r : ChunkUploadResult) (rest : List ChunkUploadResult) (rem : Int),
      r.err.isSome = true → r.chunk.attempt ≠ maxRetryAttempts →
      collectChunkUploadError (r :: rest) rem =
        ((collectChunkUploadError rest rem).fst,
          CoordEvent.resubmit
              ⟨r.chunk.id, r.chunk.offset, r.chunk.attempt + 1⟩
              (2 ^ r.chunk.attempt) ::
            (collectChunkUploadError rest rem).snd)) ∧
    (∀ c, resubmitFire true c = none) ∧
    (∀ c, resubmitFire false c = some c) ∧
    (∀ results : List ChunkUploadResult,
      (∀ r ∈ results, r.err = none) → results ≠ [] →
      collectChunkUploadError results (results.length : Int) =
        (none, [CoordEvent.stopSignal])) := by
  refine ⟨?_, ?_, fun c => rfl, fun c => rfl, ?_⟩
  · intro r rest rem h hmax
    obtain ⟨ch, err⟩ := r
    cases err with
    | none => simp at h
    | some e =>
      simp only at hmax
      simp [collectChunkUploadError, hmax]
  · intro r rest rem h hne
    obtain ⟨⟨cid, coff, catt⟩, err⟩ := r
    cases err with
    | none => simp at h
    | some e =>
      simp only at hne
      simp [collectChunkUploadError, hne]
  · intro results
    induction results with
    | nil => intro _ hne; exact absurd rfl hne
    | cons a rest ih =>
      intro hall _
      have ha : a.err = none := hall a (List.mem_cons_self _ _)
      obtain ⟨ch, err⟩ := a
      simp only at ha
      subst ha
      cases rest with
      | nil => simp [collectChunkUploadError]
      | cons b rs =>
        have hstep : collectChunkUploadError
            (⟨ch, none⟩ :: b :: rs) ((((b :: rs).length + 1 : Nat)) : Int) =
            (if (((((b :: rs).length + 1 : Nat) : Int) - 1) == 0) = true
             then (none, [CoordEvent.stopSignal])
             else collectChunkUploadError (b :: rs)
               ((((b :: rs).length + 1 : Nat) : Int) - 1)) := rfl
        have harith : ((((b :: rs).length + 1 : Nat)) : Int) - 1 =
            (((b :: rs).length : Nat) : Int) := by
          push_cast
          ring
        show collectChunkUploadError
            (⟨ch, none⟩ :: b :: rs) ((((b :: rs).length + 1 : Nat)) : Int) =
          (none, [CoordEvent.stopSignal])
        rw [hstep, harith, if_neg ?hcond]
        case hcond =>
          simp only [beq_iff_eq, List.length_cons]
          push_cast
          omega
        exact ih (fun r hr => hall r (List.mem_cons_of_mem _ hr))
          (by simp)

theorem chunk_coordinator_spec_witness :
    (⟨⟨1, 0, maxRetryAttempts⟩,
        some ⟨"upload failed", false, false, false⟩⟩ :
      ChunkUploadResult).err.isSome = true ∧
    collectChunkUploadError
        [⟨⟨1, 0, maxRetryAttempts⟩,
          some ⟨"upload failed", false, false, false⟩⟩] 3 =
      (some ⟨⟨1, 0, maxRetryAttempts⟩,
          some ⟨"upload failed", false, false, false⟩⟩,
        [CoordEvent.stopSignal]) :=
  ⟨by decide,
    chunk_coordinator_spec.1
      ⟨⟨1, 0, maxRetryAttempts⟩,
        some ⟨"upload failed", false, false, false⟩⟩ [] 3
      (by decide) rfl⟩

end Snapstore
